import Mathlib

/-!
Shallow embedding of the seat-accounting logic of `payments.py`
(repository book_seat_pay): booking records, the interest registry,
seat counting, payment-code and waitlist-priority generation, the
parent submission flow (interest and waitlist branches) and the admin
mark-paid handler, together with theorems about them.
-/

namespace BookSeat

/-- One row of the payments table (the `payments.csv` schema of
`load_data`).  Ticket counts and the priority number are non-negative
integers; `total_amount` is always a whole number of euros in this
system (`total_tickets * TICKET_PRICE`, or 0), so it is carried as a
natural number. -/
structure Record where
  timestamp : String
  parent_name : String
  email : String
  child_class : String
  child_tickets : Nat
  adult_tickets : Nat
  total_tickets : Nat
  total_amount : Nat
  payment_method : String
  payment_code : String
  payment_status : String
  category : String
  priority_number : Nat
deriving Repr, DecidableEq

/-- One row of the interest registry (`interest.csv` after the column
renaming in `load_interest`). -/
structure InterestRow where
  email : String
  parent_name : String
  child_class : String
  child_tickets : Nat
  adult_tickets : Nat
deriving Repr, DecidableEq

/-- Derived on load (`load_interest`): `total_tickets = child_tickets + adult_tickets`. -/
def InterestRow.total_tickets (r : InterestRow) : Nat :=
  r.child_tickets + r.adult_tickets

/-- Python's `str.lower()`, modelled characterwise (the emails and
codes this system compares are ASCII). -/
def pyLower (s : String) : String :=
  String.mk (s.data.map Char.toLower)

/-- Python's `str.strip()`: drop whitespace from both ends. -/
def pyStrip (s : String) : String :=
  String.mk (((s.data.dropWhile Char.isWhitespace).reverse.dropWhile Char.isWhitespace).reverse)

/-- Fixed configuration constant `MAX_SEATS = 85`. -/
def MAX_SEATS : Nat := 85

/-- Fixed configuration constant `TICKET_PRICE = 10`. -/
def TICKET_PRICE : Nat := 10

/-- Embeds `compute_seats_used`: the sum of `total_tickets` over all
records whose category is not `waitlist`. -/
def compute_seats_used (df : List Record) : Nat :=
  ((df.filter (fun r => r.category != "waitlist")).map Record.total_tickets).sum

/-- Zero-pads a numeral to width 3, as Python's format spec `03d` does. -/
def pad3 (n : Nat) : String :=
  let s := toString n
  if s.length ≥ 3 then s else String.mk (List.replicate (3 - s.length) '0') ++ s

/-- Embeds `generate_payment_code`: the string `EVT-` followed by
`len(df) + 1`, zero-padded to three digits. -/
def generate_payment_code (df : List Record) : String :=
  "EVT-" ++ pad3 (df.length + 1)

/-- The `priority_number` column restricted to waitlist-category rows
(the series `df[df["category"] == "waitlist"]["priority_number"]` of
`get_next_priority`). -/
def waitlistPriorities (df : List Record) : List Nat :=
  (df.filter (fun r => r.category == "waitlist")).map Record.priority_number

/-- Embeds `get_next_priority`: 1 on an empty table, 1 when no waitlist
rows exist, and the maximum waitlist `priority_number` plus 1 otherwise. -/
def get_next_priority (df : List Record) : Nat :=
  if df = [] then 1
  else if waitlistPriorities df = [] then 1
  else (waitlistPriorities df).foldr Nat.max 0 + 1

/-- Embeds `get_interest_for_email`: first registry row whose
lower-cased email equals the lower-cased, stripped query email. -/
def get_interest_for_email (reg : List InterestRow) (email : String) : Option InterestRow :=
  reg.find? (fun r => pyLower r.email == pyStrip (pyLower email))

/-- Helper for `get_booking_for_email`: first row matching the key,
together with its positional index. -/
def findBookingAux (key : String) : List Record → Nat → Option (Record × Nat)
  | [], _ => none
  | r :: rs, i => if pyLower r.email == key then some (r, i) else findBookingAux key rs (i + 1)

/-- Embeds `get_booking_for_email`: first payments row whose
lower-cased email equals the lower-cased, stripped query email,
together with its index. -/
def get_booking_for_email (df : List Record) (email : String) : Option (Record × Nat) :=
  findBookingAux (pyStrip (pyLower email)) df 0

/-- One named error kind per rejection path of the parent submission
handler. -/
inductive BookError where
  | alreadyPaidImmutable
  | emptyFields
  | zeroTickets
  | exceedsDeclaredInterest (declaredMax : Nat)
  | capacityExceeded (available : Int)
deriving Repr, DecidableEq

/-- Outcome of a parent submission: an error (in which case the stored
table is not rewritten) or the saved table. -/
inductive SubmitOutcome where
  | err (e : BookError)
  | saved (table : List Record)
deriving Repr, DecidableEq

/-- Whether the outcome is a capacity error. -/
def SubmitOutcome.isCapacityError : SubmitOutcome → Bool
  | .err (.capacityExceeded _) => true
  | _ => false

/-- Whether the outcome saved a table. -/
def SubmitOutcome.isSaved : SubmitOutcome → Bool
  | .saved _ => true
  | _ => false

/-- The first batch of in-place field updates applied to an existing
row in both update branches (timestamp, identity fields, ticket counts
and category). -/
def updatedBase (r0 : Record) (now email parentName childClass : String)
    (ct ad : Nat) (category : String) : Record :=
  { r0 with
    timestamp := now,
    parent_name := pyStrip parentName,
    email := pyStrip email,
    child_class := childClass,
    child_tickets := ct,
    adult_tickets := ad,
    total_tickets := ct + ad,
    category := category }

/-- The fully updated row written by the interest update branch:
priority kept (the reassignment guard asks for category `waitlist`),
payment code kept unless empty (else regenerated from the current
table), method and amount overwritten, and a `waitlist` status promoted
to `pending`. -/
def interestR2 (df : List Record) (r0 : Record) (idx : Nat)
    (now email parentName childClass : String) (ct ad : Nat)
    (methodChoice category : String) : Record :=
  let r1 := updatedBase r0 now email parentName childClass ct ad category
  let df1 := df.set idx r1
  { r1 with
    priority_number :=
      if r0.priority_number = 0 ∧ category = "waitlist" then get_next_priority df1
      else r0.priority_number,
    payment_code :=
      if r0.payment_code = "" then generate_payment_code df1 else r0.payment_code,
    payment_method := if category = "interest" then methodChoice else "",
    total_amount := (ct + ad) * TICKET_PRICE,
    payment_status :=
      if r0.payment_status = "waitlist" then "pending" else r0.payment_status }

/-- The fully updated row written by the waitlist update branch:
priority kept when nonzero (else freshly assigned), status forced to
`waitlist`, payment code, method and amount cleared. -/
def waitlistR2 (df : List Record) (r0 : Record) (idx : Nat)
    (now email parentName childClass : String) (ct ad : Nat) : Record :=
  let r1 := updatedBase r0 now email parentName childClass ct ad "waitlist"
  let df1 := df.set idx r1
  { r1 with
    priority_number :=
      if r0.priority_number = 0 then get_next_priority df1 else r0.priority_number,
    payment_status := "waitlist",
    payment_code := "",
    payment_method := "",
    total_amount := 0 }

/-- The new row appended by the interest creation branch. -/
def interestNewRow (df : List Record) (now email parentName childClass : String)
    (ct ad : Nat) (methodChoice category : String) : Record :=
  { timestamp := now,
    parent_name := pyStrip parentName,
    email := pyStrip email,
    child_class := childClass,
    child_tickets := ct,
    adult_tickets := ad,
    total_tickets := ct + ad,
    total_amount := (ct + ad) * TICKET_PRICE,
    payment_method := methodChoice,
    payment_code := generate_payment_code df,
    payment_status := "pending",
    category := category,
    priority_number := 0 }

/-- The new row appended by the waitlist creation branch. -/
def waitlistNewRow (df : List Record) (now email parentName childClass : String)
    (ct ad : Nat) : Record :=
  { timestamp := now,
    parent_name := pyStrip parentName,
    email := pyStrip email,
    child_class := childClass,
    child_tickets := ct,
    adult_tickets := ad,
    total_tickets := ct + ad,
    total_amount := 0,
    payment_method := "",
    payment_code := "",
    payment_status := "waitlist",
    category := "waitlist",
    priority_number := get_next_priority df }

/-- The parent submission handler when a booking row already exists for
the email (so `category` is the stored row's category): the paid-record
guard, the field and ticket-count guards, the declared-interest check,
then either the capacity-gated interest update or the waitlist update. -/
def submitExisting (df : List Record) (reg : List InterestRow)
    (now email parentName childClass : String) (ct ad : Nat) (methodChoice : String)
    (r0 : Record) (idx : Nat) : SubmitOutcome :=
  let interestRow := get_interest_for_email reg email
  let category := r0.category
  if r0.payment_status = "paid" ∧ category = "interest" then
    .err .alreadyPaidImmutable
  else
    let maxTicketsAllowed : Option Nat :=
      if category = "interest" then interestRow.map InterestRow.total_tickets else none
    let totalTickets := ct + ad
    if parentName = "" ∨ email = "" then .err .emptyFields
    else if totalTickets = 0 then .err .zeroTickets
    else if category = "interest" ∧ maxTicketsAllowed ≠ none ∧
        maxTicketsAllowed.getD 0 < totalTickets then
      .err (.exceedsDeclaredInterest (maxTicketsAllowed.getD 0))
    else if category = "interest" then
      let seatsUsedNow : Int := compute_seats_used df
      let previousTotal : Int := r0.total_tickets
      let seatsAfter : Int :=
        if r0.category = "interest" then seatsUsedNow - previousTotal + totalTickets
        else seatsUsedNow + totalTickets
      if (MAX_SEATS : Int) < seatsAfter then
        .err (.capacityExceeded (max ((MAX_SEATS : Int) - (seatsUsedNow - previousTotal)) 0))
      else
        .saved ((df.set idx (updatedBase r0 now email parentName childClass ct ad category)).set idx
          (interestR2 df r0 idx now email parentName childClass ct ad methodChoice category))
    else
      .saved ((df.set idx (updatedBase r0 now email parentName childClass ct ad "waitlist")).set idx
        (waitlistR2 df r0 idx now email parentName childClass ct ad))

/-- The parent submission handler when no booking row exists for the
email (so `category` comes from the interest registry lookup): guards,
declared-interest check, then capacity-gated interest creation or
unconstrained waitlist creation. -/
def submitNew (df : List Record) (reg : List InterestRow)
    (now email parentName childClass : String) (ct ad : Nat)
    (methodChoice : String) : SubmitOutcome :=
  let interestRow := get_interest_for_email reg email
  let category := if interestRow.isSome then "interest" else "waitlist"
  let maxTicketsAllowed : Option Nat :=
    if category = "interest" then interestRow.map InterestRow.total_tickets else none
  let totalTickets := ct + ad
  if parentName = "" ∨ email = "" then .err .emptyFields
  else if totalTickets = 0 then .err .zeroTickets
  else if category = "interest" ∧ maxTicketsAllowed ≠ none ∧
      maxTicketsAllowed.getD 0 < totalTickets then
    .err (.exceedsDeclaredInterest (maxTicketsAllowed.getD 0))
  else if category = "interest" then
    let seatsUsedNow : Int := compute_seats_used df
    let seatsAfter : Int := seatsUsedNow + totalTickets
    if (MAX_SEATS : Int) < seatsAfter then
      .err (.capacityExceeded (max ((MAX_SEATS : Int) - seatsUsedNow) 0))
    else
      .saved (df ++ [interestNewRow df now email parentName childClass ct ad methodChoice category])
  else
    .saved (df ++ [waitlistNewRow df now email parentName childClass ct ad])

/-- The whole parent submission flow on a loaded table: dispatch on
whether a booking row already exists for the email. -/
def submitBooking (df : List Record) (reg : List InterestRow)
    (now email parentName childClass : String) (ct ad : Nat)
    (methodChoice : String) : SubmitOutcome :=
  match get_booking_for_email df email with
  | some (r0, idx) => submitExisting df reg now email parentName childClass ct ad methodChoice r0 idx
  | none => submitNew df reg now email parentName childClass ct ad methodChoice

/-- Outcome of the admin mark-paid handler. -/
inductive MarkPaidOutcome where
  | codeNotFound
  | invalidTargetCategory
  | saved (table : List Record)
deriving Repr, DecidableEq

/-- Embeds the admin mark-paid button handler: match the stripped code
against `payment_code`, reject a missing code or a waitlist-category
match, otherwise set `payment_status` to `paid` on every matching row. -/
def mark_paid (df : List Record) (codeToMark : String) : MarkPaidOutcome :=
  let c := pyStrip codeToMark
  if (df.any (fun r => r.payment_code == c)) = false then .codeNotFound
  else if df.any (fun r => r.payment_code == c && r.category == "waitlist") then
    .invalidTargetCategory
  else
    .saved (df.map (fun r => if r.payment_code == c then { r with payment_status := "paid" } else r))

/-- The inputs of one parent submission: the registry in effect plus
every form field. -/
structure SubmitArgs where
  reg : List InterestRow
  now : String
  email : String
  parentName : String
  childClass : String
  ct : Nat
  ad : Nat
  methodChoice : String
deriving Repr, DecidableEq

/-- The table after one parent submission: the saved table on success,
the unchanged table on any error (errors do not write). -/
def stepSubmit (df : List Record) (a : SubmitArgs) : List Record :=
  match submitBooking df a.reg a.now a.email a.parentName a.childClass a.ct a.ad a.methodChoice with
  | .saved t => t
  | .err _ => df

/-- Runs a sequence of parent submissions starting from the empty table. -/
def runOps (ops : List SubmitArgs) : List Record :=
  ops.foldl stepSubmit []

/-- How much one record contributes to `compute_seats_used`. -/
def seatContribution (r : Record) : Nat :=
  if r.category = "waitlist" then 0 else r.total_tickets

/-- The category the parent flow uses for a submission: the stored
record's category when a booking exists, else `interest` exactly when
the interest registry has an entry for the email. -/
def flowCategory (df : List Record) (reg : List InterestRow) (email : String) : String :=
  match get_booking_for_email df email with
  | some br => br.1.category
  | none => if (get_interest_for_email reg email).isSome then "interest" else "waitlist"

/-- The `previous_total` the parent flow uses: the stored record's
`total_tickets` when a booking exists, else 0. -/
def flowPreviousTotal (df : List Record) (email : String) : Nat :=
  match get_booking_for_email df email with
  | some br => br.1.total_tickets
  | none => 0

/-- Every record of a table produced by the booking flow has category
`interest` or `waitlist`. -/
def CatOK (df : List Record) : Prop :=
  ∀ r ∈ df, r.category = "interest" ∨ r.category = "waitlist"

/-- Concrete fixture: a pending interest booking consistent with the
flow's own writes. -/
def recA : Record :=
  { timestamp := "t0", parent_name := "Alice", email := "a@b", child_class := "Γ",
    child_tickets := 2, adult_tickets := 1, total_tickets := 3, total_amount := 30,
    payment_method := "IRIS", payment_code := "EVT-001", payment_status := "pending",
    category := "interest", priority_number := 0 }

/-- Concrete fixture: a paid interest booking. -/
def recPaid : Record :=
  { recA with payment_status := "paid" }

/-- Concrete fixture: a large pending interest booking (84 seats). -/
def recBig : Record :=
  { timestamp := "t0", parent_name := "Bob", email := "big@x", child_class := "Α",
    child_tickets := 42, adult_tickets := 42, total_tickets := 84, total_amount := 840,
    payment_method := "IRIS", payment_code := "EVT-001", payment_status := "pending",
    category := "interest", priority_number := 0 }

/-- Concrete fixture: an interest booking stored with an empty payment
code (as a restored backup may contain). -/
def recNC : Record :=
  { timestamp := "t0", parent_name := "Nora", email := "n@x", child_class := "Β",
    child_tickets := 3, adult_tickets := 2, total_tickets := 5, total_amount := 50,
    payment_method := "IRIS", payment_code := "", payment_status := "pending",
    category := "interest", priority_number := 0 }

/-- Concrete fixture: a waitlist record with priority 1. -/
def recW1 : Record :=
  { timestamp := "t0", parent_name := "Carol", email := "c@d", child_class := "Α",
    child_tickets := 1, adult_tickets := 1, total_tickets := 2, total_amount := 0,
    payment_method := "", payment_code := "", payment_status := "waitlist",
    category := "waitlist", priority_number := 1 }

/-- Concrete fixture: a waitlist record with priority 2. -/
def recW2 : Record :=
  { timestamp := "t0", parent_name := "Dan", email := "e@f", child_class := "Δ",
    child_tickets := 2, adult_tickets := 0, total_tickets := 2, total_amount := 0,
    payment_method := "", payment_code := "", payment_status := "waitlist",
    category := "waitlist", priority_number := 2 }

/-- Concrete fixture: an interest-registry declaration for `a@b`
(3 tickets in total). -/
def irA : InterestRow :=
  { email := "a@b", parent_name := "Alice", child_class := "Γ",
    child_tickets := 2, adult_tickets := 1 }

/-- Concrete fixture: an interest-registry declaration for `c@d`
(4 tickets in total). -/
def irC : InterestRow :=
  { email := "c@d", parent_name := "Carol", child_class := "Α",
    child_tickets := 2, adult_tickets := 2 }

/-- Concrete fixture: a waitlist resubmission for `c@d` used to probe
the promotion question. -/
def argsC : SubmitArgs :=
  { reg := [irC], now := "t1", email := "c@d", parentName := "Carol", childClass := "Α",
    ct := 1, ad := 1, methodChoice := "IRIS" }

/-- Concrete fixture: the interest update that re-submits the data of
`recNC` unchanged. -/
def argsNC : SubmitArgs :=
  { reg := [], now := "t1", email := "n@x", parentName := "Nora", childClass := "Β",
    ct := 3, ad := 2, methodChoice := "IRIS" }

theorem compute_seats_used_cons (r : Record) (l : List Record) :
    compute_seats_used (r :: l) = seatContribution r + compute_seats_used l := by
  by_cases h : r.category = "waitlist" <;>
    simp [compute_seats_used, seatContribution, List.filter_cons, h]

theorem compute_seats_used_append (l : List Record) (r : Record) :
    compute_seats_used (l ++ [r]) = compute_seats_used l + seatContribution r := by
  induction l with
  | nil => simp [compute_seats_used_cons]; omega
  | cons a l ih =>
      simp only [List.cons_append, compute_seats_used_cons, ih]
      omega

theorem compute_seats_used_set (l : List Record) (i : Nat) (r0 r : Record)
    (h : l.get? i = some r0) :
    compute_seats_used (l.set i r) + seatContribution r0
      = compute_seats_used l + seatContribution r := by
  induction l generalizing i with
  | nil => simp at h
  | cons a l ih =>
      cases i with
      | zero =>
          simp only [List.get?_cons_zero, Option.some_inj] at h
          subst h
          simp only [List.set_cons_zero, compute_seats_used_cons]
          omega
      | succ n =>
          simp only [List.get?_cons_succ] at h
          have := ih n h
          simp only [List.set_cons_succ, compute_seats_used_cons]
          omega

theorem waitlistPriorities_cons (r : Record) (l : List Record) :
    waitlistPriorities (r :: l) =
      (if r.category = "waitlist" then [r.priority_number] else []) ++ waitlistPriorities l := by
  by_cases h : r.category = "waitlist" <;>
    simp [waitlistPriorities, List.filter_cons, h]

theorem waitlistPriorities_append (l : List Record) (r : Record) :
    waitlistPriorities (l ++ [r]) =
      waitlistPriorities l ++ (if r.category = "waitlist" then [r.priority_number] else []) := by
  induction l with
  | nil =>
      by_cases h : r.category = "waitlist" <;>
        simp [waitlistPriorities, List.filter_cons, h]
  | cons a l ih => simp [List.cons_append, waitlistPriorities_cons, ih]

theorem waitlistPriorities_set_nonwait (l : List Record) (i : Nat) (r0 r : Record)
    (h : l.get? i = some r0) (h0 : r0.category ≠ "waitlist") (h1 : r.category ≠ "waitlist") :
    waitlistPriorities (l.set i r) = waitlistPriorities l := by
  induction l generalizing i with
  | nil => simp at h
  | cons a l ih =>
      cases i with
      | zero =>
          simp only [List.get?_cons_zero, Option.some_inj] at h
          subst h
          simp [List.set_cons_zero, waitlistPriorities_cons, h0, h1]
      | succ n =>
          simp only [List.get?_cons_succ] at h
          simp [List.set_cons_succ, waitlistPriorities_cons, ih n h]

theorem waitlistPriorities_set_wait (l : List Record) (i : Nat) (r0 r : Record)
    (h : l.get? i = some r0) (h0 : r0.category = "waitlist") (h1 : r.category = "waitlist") :
    ∃ l1 l2, waitlistPriorities l = l1 ++ r0.priority_number :: l2 ∧
      waitlistPriorities (l.set i r) = l1 ++ r.priority_number :: l2 := by
  induction l generalizing i with
  | nil => simp at h
  | cons a l ih =>
      cases i with
      | zero =>
          simp only [List.get?_cons_zero, Option.some_inj] at h
          subst h
          exact ⟨[], waitlistPriorities l, by simp [waitlistPriorities_cons, h0],
            by simp [List.set_cons_zero, waitlistPriorities_cons, h1]⟩
      | succ n =>
          simp only [List.get?_cons_succ] at h
          obtain ⟨l1, l2, e1, e2⟩ := ih n h
          by_cases ha : a.category = "waitlist"
          · exact ⟨a.priority_number :: l1, l2,
              by simp [waitlistPriorities_cons, ha, e1],
              by simp [List.set_cons_succ, waitlistPriorities_cons, ha, e2]⟩
          · exact ⟨l1, l2, by simp [waitlistPriorities_cons, ha, e1],
              by simp [List.set_cons_succ, waitlistPriorities_cons, ha, e2]⟩

theorem le_foldr_max {l : List Nat} {a : Nat} (h : a ∈ l) : a ≤ l.foldr Nat.max 0 := by
  induction l with
  | nil => simp at h
  | cons b l ih =>
      rcases List.mem_cons.mp h with rfl | h2
      · exact Nat.le_max_left _ _
      · exact (ih h2).trans (Nat.le_max_right _ _)

theorem mem_waitlistPriorities_lt_next {df : List Record} {p : Nat}
    (h : p ∈ waitlistPriorities df) : p < get_next_priority df := by
  have hne : waitlistPriorities df ≠ [] := by
    intro e; rw [e] at h; simp at h
  have hdf : df ≠ [] := by
    intro e; subst e; exact hne rfl
  have := le_foldr_max h
  simp only [get_next_priority, if_neg hdf, if_neg hne]
  omega

theorem get_next_priority_congr {d1 d2 : List Record}
    (h : waitlistPriorities d1 = waitlistPriorities d2) (h2 : d1 = [] ↔ d2 = []) :
    get_next_priority d1 = get_next_priority d2 := by
  by_cases e : d1 = []
  · simp [get_next_priority, e, h2.mp e]
  · have e2 : ¬ d2 = [] := fun x => e (h2.mpr x)
    simp [get_next_priority, e, e2, h]

theorem findBookingAux_get? {key : String} :
    ∀ (l : List Record) (i : Nat) (r : Record) (j : Nat),
      findBookingAux key l i = some (r, j) → i ≤ j ∧ l.get? (j - i) = some r := by
  intro l
  induction l with
  | nil => intro i r j h; simp [findBookingAux] at h
  | cons a l ih =>
      intro i r j h
      simp only [findBookingAux] at h
      by_cases hm : (pyLower a.email == key) = true
      · rw [if_pos hm] at h
        simp only [Option.some_inj, Prod.mk.injEq] at h
        obtain ⟨rfl, rfl⟩ := h
        simp
      · rw [if_neg hm] at h
        obtain ⟨h1, h2⟩ := ih (i + 1) r j h
        refine ⟨by omega, ?_⟩
        have : j - i = (j - (i + 1)) + 1 := by omega
        rw [this, List.get?_cons_succ]
        exact h2

theorem get_booking_get? {df : List Record} {email : String} {r : Record} {idx : Nat}
    (h : get_booking_for_email df email = some (r, idx)) : df.get? idx = some r := by
  have := (findBookingAux_get? df 0 r idx h).2
  simpa using this

@[simp] theorem interestR2_category (df : List Record) (r0 : Record) (idx : Nat)
    (now email parentName childClass : String) (ct ad : Nat) (methodChoice category : String) :
    (interestR2 df r0 idx now email parentName childClass ct ad methodChoice category).category
      = category := by
  simp [interestR2, updatedBase]

@[simp] theorem interestR2_total (df : List Record) (r0 : Record) (idx : Nat)
    (now email parentName childClass : String) (ct ad : Nat) (methodChoice category : String) :
    (interestR2 df r0 idx now email parentName childClass ct ad methodChoice category).total_tickets
      = ct + ad := by
  simp [interestR2, updatedBase]

@[simp] theorem interestR2_priority (df : List Record) (r0 : Record) (idx : Nat)
    (now email parentName childClass : String) (ct ad : Nat) (methodChoice category : String) :
    (interestR2 df r0 idx now email parentName childClass ct ad methodChoice category).priority_number
      = if r0.priority_number = 0 ∧ category = "waitlist"
        then get_next_priority (df.set idx (updatedBase r0 now email parentName childClass ct ad category))
        else r0.priority_number := by
  simp [interestR2, updatedBase]

@[simp] theorem waitlistR2_category (df : List Record) (r0 : Record) (idx : Nat)
    (now email parentName childClass : String) (ct ad : Nat) :
    (waitlistR2 df r0 idx now email parentName childClass ct ad).category = "waitlist" := by
  simp [waitlistR2, updatedBase]

@[simp] theorem waitlistR2_total (df : List Record) (r0 : Record) (idx : Nat)
    (now email parentName childClass : String) (ct ad : Nat) :
    (waitlistR2 df r0 idx now email parentName childClass ct ad).total_tickets = ct + ad := by
  simp [waitlistR2, updatedBase]

@[simp] theorem waitlistR2_priority (df : List Record) (r0 : Record) (idx : Nat)
    (now email parentName childClass : String) (ct ad : Nat) :
    (waitlistR2 df r0 idx now email parentName childClass ct ad).priority_number
      = if r0.priority_number = 0
        then get_next_priority (df.set idx (updatedBase r0 now email parentName childClass ct ad "waitlist"))
        else r0.priority_number := by
  simp [waitlistR2, updatedBase]

@[simp] theorem interestNewRow_category (df : List Record) (now email parentName childClass : String)
    (ct ad : Nat) (methodChoice category : String) :
    (interestNewRow df now email parentName childClass ct ad methodChoice category).category
      = category := by
  simp [interestNewRow]

@[simp] theorem interestNewRow_total (df : List Record) (now email parentName childClass : String)
    (ct ad : Nat) (methodChoice category : String) :
    (interestNewRow df now email parentName childClass ct ad methodChoice category).total_tickets
      = ct + ad := by
  simp [interestNewRow]

@[simp] theorem waitlistNewRow_category (df : List Record) (now email parentName childClass : String)
    (ct ad : Nat) :
    (waitlistNewRow df now email parentName childClass ct ad).category = "waitlist" := by
  simp [waitlistNewRow]

@[simp] theorem waitlistNewRow_total (df : List Record) (now email parentName childClass : String)
    (ct ad : Nat) :
    (waitlistNewRow df now email parentName childClass ct ad).total_tickets = ct + ad := by
  simp [waitlistNewRow]

@[simp] theorem waitlistNewRow_priority (df : List Record) (now email parentName childClass : String)
    (ct ad : Nat) :
    (waitlistNewRow df now email parentName childClass ct ad).priority_number
      = get_next_priority df := by
  simp [waitlistNewRow]

theorem submitBooking_existing {df : List Record} {email : String} {r0 : Record} {idx : Nat}
    (reg : List InterestRow) (now parentName childClass : String) (ct ad : Nat)
    (methodChoice : String)
    (hb : get_booking_for_email df email = some (r0, idx)) :
    submitBooking df reg now email parentName childClass ct ad methodChoice
      = submitExisting df reg now email parentName childClass ct ad methodChoice r0 idx := by
  unfold submitBooking
  rw [hb]

theorem submitBooking_new {df : List Record} {email : String}
    (reg : List InterestRow) (now parentName childClass : String) (ct ad : Nat)
    (methodChoice : String)
    (hb : get_booking_for_email df email = none) :
    submitBooking df reg now email parentName childClass ct ad methodChoice
      = submitNew df reg now email parentName childClass ct ad methodChoice := by
  unfold submitBooking
  rw [hb]

theorem submitExisting_waitlist {df : List Record} {reg : List InterestRow}
    {now email parentName childClass : String} {ct ad : Nat} {methodChoice : String}
    {r0 : Record} {idx : Nat}
    (hcat : r0.category ≠ "interest")
    (hpn : parentName ≠ "") (he : email ≠ "") (ht : ct + ad ≠ 0) :
    submitExisting df reg now email parentName childClass ct ad methodChoice r0 idx
      = .saved ((df.set idx (updatedBase r0 now email parentName childClass ct ad "waitlist")).set idx
          (waitlistR2 df r0 idx now email parentName childClass ct ad)) := by
  simp only [submitExisting]
  rw [if_neg (fun h => hcat h.2), if_neg (by simp [hpn, he]), if_neg ht,
    if_neg (fun h => hcat h.1), if_neg hcat]

theorem submitExisting_interest_update {df : List Record} {reg : List InterestRow}
    {now email parentName childClass : String} {ct ad : Nat} {methodChoice : String}
    {r0 : Record} {idx : Nat}
    (hcat : r0.category = "interest") (hps : r0.payment_status ≠ "paid")
    (hpn : parentName ≠ "") (he : email ≠ "") (ht : ct + ad ≠ 0)
    (hdecl : ∀ ir, get_interest_for_email reg email = some ir → ct + ad ≤ ir.total_tickets)
    (hcap : ¬ ((MAX_SEATS : Int) <
      (compute_seats_used df : Int) - (r0.total_tickets : Int) + ((ct + ad : Nat) : Int))) :
    submitExisting df reg now email parentName childClass ct ad methodChoice r0 idx
      = .saved ((df.set idx (updatedBase r0 now email parentName childClass ct ad r0.category)).set idx
          (interestR2 df r0 idx now email parentName childClass ct ad methodChoice r0.category)) := by
  simp only [submitExisting]
  have hdecl2 : ¬(r0.category = "interest" ∧
      (if r0.category = "interest"
        then (get_interest_for_email reg email).map InterestRow.total_tickets else none) ≠ none ∧
      (if r0.category = "interest"
        then (get_interest_for_email reg email).map InterestRow.total_tickets else none).getD 0
        < ct + ad) := by
    rintro ⟨-, h2, h3⟩
    rw [if_pos hcat] at h2 h3
    cases hir : get_interest_for_email reg email with
    | none => rw [hir] at h2; simp at h2
    | some ir =>
        rw [hir] at h3
        simp only [Option.map_some', Option.getD_some] at h3
        exact absurd h3 (not_lt.mpr (hdecl ir hir))
  rw [if_neg (fun h => hps h.1), if_neg (by simp [hpn, he]), if_neg ht, if_neg hdecl2,
    if_pos hcat, if_pos hcat, if_neg hcap]

theorem submitExisting_paid {df : List Record} {reg : List InterestRow}
    {now email parentName childClass : String} {ct ad : Nat} {methodChoice : String}
    {r0 : Record} {idx : Nat}
    (hcat : r0.category = "interest") (hps : r0.payment_status = "paid") :
    submitExisting df reg now email parentName childClass ct ad methodChoice r0 idx
      = .err .alreadyPaidImmutable := by
  simp only [submitExisting]
  rw [if_pos ⟨hps, hcat⟩]

theorem submitExisting_declared {df : List Record} {reg : List InterestRow}
    {now email parentName childClass : String} {ct ad : Nat} {methodChoice : String}
    {r0 : Record} {idx : Nat} {ir : InterestRow}
    (hcat : r0.category = "interest") (hps : r0.payment_status ≠ "paid")
    (hpn : parentName ≠ "") (he : email ≠ "") (ht : ct + ad ≠ 0)
    (hir : get_interest_for_email reg email = some ir)
    (hx : ir.total_tickets < ct + ad) :
    submitExisting df reg now email parentName childClass ct ad methodChoice r0 idx
      = .err (.exceedsDeclaredInterest ir.total_tickets) := by
  simp only [submitExisting, hir]
  rw [if_neg (fun h => hps h.1), if_neg (by simp [hpn, he]), if_neg ht,
    if_pos ⟨hcat, by rw [if_pos hcat]; simp, by rw [if_pos hcat]; simpa using hx⟩]
  rw [if_pos hcat]
  simp

theorem submitExisting_capacity {df : List Record} {reg : List InterestRow}
    {now email parentName childClass : String} {ct ad : Nat} {methodChoice : String}
    {r0 : Record} {idx : Nat}
    (hcat : r0.category = "interest") (hps : r0.payment_status ≠ "paid")
    (hpn : parentName ≠ "") (he : email ≠ "") (ht : ct + ad ≠ 0)
    (hdecl : ∀ ir, get_interest_for_email reg email = some ir → ct + ad ≤ ir.total_tickets)
    (hcap : (MAX_SEATS : Int) <
      (compute_seats_used df : Int) - (r0.total_tickets : Int) + ((ct + ad : Nat) : Int)) :
    submitExisting df reg now email parentName childClass ct ad methodChoice r0 idx
      = .err (.capacityExceeded
          (max ((MAX_SEATS : Int) - ((compute_seats_used df : Int) - (r0.total_tickets : Int))) 0)) := by
  simp only [submitExisting]
  have hdecl2 : ¬(r0.category = "interest" ∧
      (if r0.category = "interest"
        then (get_interest_for_email reg email).map InterestRow.total_tickets else none) ≠ none ∧
      (if r0.category = "interest"
        then (get_interest_for_email reg email).map InterestRow.total_tickets else none).getD 0
        < ct + ad) := by
    rintro ⟨-, h2, h3⟩
    rw [if_pos hcat] at h2 h3
    cases hir : get_interest_for_email reg email with
    | none => rw [hir] at h2; simp at h2
    | some ir =>
        rw [hir] at h3
        simp only [Option.map_some', Option.getD_some] at h3
        exact absurd h3 (not_lt.mpr (hdecl ir hir))
  rw [if_neg (fun h => hps h.1), if_neg (by simp [hpn, he]), if_neg ht, if_neg hdecl2,
    if_pos hcat, if_pos hcat, if_pos hcap]

theorem submitNew_interest {df : List Record} {reg : List InterestRow}
    {now email parentName childClass : String} {ct ad : Nat} {methodChoice : String}
    {ir : InterestRow}
    (hir : get_interest_for_email reg email = some ir)
    (hpn : parentName ≠ "") (he : email ≠ "") (ht : ct + ad ≠ 0)
    (hdecl : ct + ad ≤ ir.total_tickets)
    (hcap : ¬ ((MAX_SEATS : Int) < (compute_seats_used df : Int) + ((ct + ad : Nat) : Int))) :
    submitNew df reg now email parentName childClass ct ad methodChoice
      = .saved (df ++
          [interestNewRow df now email parentName childClass ct ad methodChoice "interest"]) := by
  simp only [submitNew, hir, Option.isSome_some, if_true, Option.map_some', Option.getD_some]
  rw [if_neg (by simp [hpn, he]), if_neg ht,
    if_neg (by rintro ⟨-, -, h3⟩; exact absurd h3 (not_lt.mpr hdecl)),
    if_neg hcap]

theorem submitNew_waitlist {df : List Record} {reg : List InterestRow}
    {now email parentName childClass : String} {ct ad : Nat} {methodChoice : String}
    (hir : get_interest_for_email reg email = none)
    (hpn : parentName ≠ "") (he : email ≠ "") (ht : ct + ad ≠ 0) :
    submitNew df reg now email parentName childClass ct ad methodChoice
      = .saved (df ++ [waitlistNewRow df now email parentName childClass ct ad]) := by
  simp only [submitNew, hir, Option.isSome_none, if_false, Bool.false_eq_true]
  rw [if_neg (by simp [hpn, he]), if_neg ht,
    if_neg (by rintro ⟨h1, -, -⟩; simp at h1), if_neg (by simp)]

theorem submitNew_declared {df : List Record} {reg : List InterestRow}
    {now email parentName childClass : String} {ct ad : Nat} {methodChoice : String}
    {ir : InterestRow}
    (hir : get_interest_for_email reg email = some ir)
    (hpn : parentName ≠ "") (he : email ≠ "") (ht : ct + ad ≠ 0)
    (hx : ir.total_tickets < ct + ad) :
    submitNew df reg now email parentName childClass ct ad methodChoice
      = .err (.exceedsDeclaredInterest ir.total_tickets) := by
  simp only [submitNew, hir, Option.isSome_some, if_true, Option.map_some', Option.getD_some]
  rw [if_neg (by simp [hpn, he]), if_neg ht,
    if_pos ⟨trivial, by simp, hx⟩]

theorem submitNew_capacity {df : List Record} {reg : List InterestRow}
    {now email parentName childClass : String} {ct ad : Nat} {methodChoice : String}
    {ir : InterestRow}
    (hir : get_interest_for_email reg email = some ir)
    (hpn : parentName ≠ "") (he : email ≠ "") (ht : ct + ad ≠ 0)
    (hdecl : ct + ad ≤ ir.total_tickets)
    (hcap : (MAX_SEATS : Int) < (compute_seats_used df : Int) + ((ct + ad : Nat) : Int)) :
    submitNew df reg now email parentName childClass ct ad methodChoice
      = .err (.capacityExceeded (max ((MAX_SEATS : Int) - (compute_seats_used df : Int)) 0)) := by
  simp only [submitNew, hir, Option.isSome_some, if_true, Option.map_some', Option.getD_some]
  rw [if_neg (by simp [hpn, he]), if_neg ht,
    if_neg (by rintro ⟨-, -, h3⟩; exact absurd h3 (not_lt.mpr hdecl)),
    if_pos hcap]

theorem submitNew_empty {df : List Record} {reg : List InterestRow}
    {now email parentName childClass : String} {ct ad : Nat} {methodChoice : String}
    (hpn : parentName = "" ∨ email = "") :
    submitNew df reg now email parentName childClass ct ad methodChoice = .err .emptyFields := by
  simp only [submitNew]
  rw [if_pos hpn]

theorem submitNew_zero {df : List Record} {reg : List InterestRow}
    {now email parentName childClass : String} {ct ad : Nat} {methodChoice : String}
    (hpn : ¬(parentName = "" ∨ email = "")) (ht : ct + ad = 0) :
    submitNew df reg now email parentName childClass ct ad methodChoice = .err .zeroTickets := by
  simp only [submitNew]
  rw [if_neg hpn, if_pos ht]

theorem submitExisting_empty {df : List Record} {reg : List InterestRow}
    {now email parentName childClass : String} {ct ad : Nat} {methodChoice : String}
    {r0 : Record} {idx : Nat}
    (hpaid : ¬(r0.payment_status = "paid" ∧ r0.category = "interest"))
    (hpn : parentName = "" ∨ email = "") :
    submitExisting df reg now email parentName childClass ct ad methodChoice r0 idx
      = .err .emptyFields := by
  simp only [submitExisting]
  rw [if_neg hpaid, if_pos hpn]

theorem submitExisting_zero {df : List Record} {reg : List InterestRow}
    {now email parentName childClass : String} {ct ad : Nat} {methodChoice : String}
    {r0 : Record} {idx : Nat}
    (hpaid : ¬(r0.payment_status = "paid" ∧ r0.category = "interest"))
    (hpn : ¬(parentName = "" ∨ email = "")) (ht : ct + ad = 0) :
    submitExisting df reg now email parentName childClass ct ad methodChoice r0 idx
      = .err .zeroTickets := by
  simp only [submitExisting]
  rw [if_neg hpaid, if_neg hpn, if_pos ht]

theorem submitNew_saved_cases {df : List Record} {reg : List InterestRow}
    {now email parentName childClass : String} {ct ad : Nat} {methodChoice : String}
    {t : List Record}
    (heq : submitNew df reg now email parentName childClass ct ad methodChoice = .saved t) :
    (∃ ir, get_interest_for_email reg email = some ir ∧ ct + ad ≤ ir.total_tickets ∧
      ¬ ((MAX_SEATS : Int) < (compute_seats_used df : Int) + ((ct + ad : Nat) : Int)) ∧
      t = df ++ [interestNewRow df now email parentName childClass ct ad methodChoice "interest"])
    ∨ (get_interest_for_email reg email = none ∧
      t = df ++ [waitlistNewRow df now email parentName childClass ct ad]) := by
  by_cases hpn : parentName = "" ∨ email = ""
  · rw [submitNew_empty hpn] at heq; simp at heq
  · by_cases ht : ct + ad = 0
    · rw [submitNew_zero hpn ht] at heq; simp at heq
    · have hpn2 := hpn
      push_neg at hpn2
      rcases hi : get_interest_for_email reg email with _ | ir
      · right
        rw [submitNew_waitlist hi hpn2.1 hpn2.2 ht] at heq
        exact ⟨rfl, by simpa using heq.symm⟩
      · by_cases hd : ir.total_tickets < ct + ad
        · rw [submitNew_declared hi hpn2.1 hpn2.2 ht hd] at heq; simp at heq
        · by_cases hc : (MAX_SEATS : Int) < (compute_seats_used df : Int) + ((ct + ad : Nat) : Int)
          · rw [submitNew_capacity hi hpn2.1 hpn2.2 ht (not_lt.mp hd) hc] at heq; simp at heq
          · left
            refine ⟨ir, rfl, not_lt.mp hd, hc, ?_⟩
            rw [submitNew_interest hi hpn2.1 hpn2.2 ht (not_lt.mp hd) hc] at heq
            simpa using heq.symm

theorem submitExisting_saved_cases {df : List Record} {reg : List InterestRow}
    {now email parentName childClass : String} {ct ad : Nat} {methodChoice : String}
    {r0 : Record} {idx : Nat} {t : List Record}
    (heq : submitExisting df reg now email parentName childClass ct ad methodChoice r0 idx
      = .saved t) :
    (r0.category = "interest" ∧
      ¬ ((MAX_SEATS : Int) <
        (compute_seats_used df : Int) - (r0.total_tickets : Int) + ((ct + ad : Nat) : Int)) ∧
      t = (df.set idx (updatedBase r0 now email parentName childClass ct ad r0.category)).set idx
          (interestR2 df r0 idx now email parentName childClass ct ad methodChoice r0.category))
    ∨ (r0.category ≠ "interest" ∧
      t = (df.set idx (updatedBase r0 now email parentName childClass ct ad "waitlist")).set idx
          (waitlistR2 df r0 idx now email parentName childClass ct ad)) := by
  by_cases hpaid : r0.payment_status = "paid" ∧ r0.category = "interest"
  · rw [submitExisting_paid hpaid.2 hpaid.1] at heq; simp at heq
  · by_cases hpn : parentName = "" ∨ email = ""
    · rw [submitExisting_empty hpaid hpn] at heq; simp at heq
    · by_cases ht : ct + ad = 0
      · rw [submitExisting_zero hpaid hpn ht] at heq; simp at heq
      · have hpn2 := hpn
        push_neg at hpn2
        by_cases hcat : r0.category = "interest"
        · have hps : r0.payment_status ≠ "paid" := fun hp => hpaid ⟨hp, hcat⟩
          have hdecl : ∀ ir, get_interest_for_email reg email = some ir →
              ct + ad ≤ ir.total_tickets := by
            intro ir hi
            by_contra hlt
            rw [submitExisting_declared hcat hps hpn2.1 hpn2.2 ht hi (not_le.mp hlt)] at heq
            simp at heq
          by_cases hc : (MAX_SEATS : Int) <
              (compute_seats_used df : Int) - (r0.total_tickets : Int) + ((ct + ad : Nat) : Int)
          · rw [submitExisting_capacity hcat hps hpn2.1 hpn2.2 ht hdecl hc] at heq; simp at heq
          · left
            refine ⟨hcat, hc, ?_⟩
            rw [submitExisting_interest_update hcat hps hpn2.1 hpn2.2 ht hdecl hc] at heq
            simpa using heq.symm
        · right
          refine ⟨hcat, ?_⟩
          rw [submitExisting_waitlist hcat hpn2.1 hpn2.2 ht] at heq
          simpa using heq.symm

theorem stepSubmit_seats (df : List Record) (a : SubmitArgs)
    (h : compute_seats_used df ≤ MAX_SEATS) :
    compute_seats_used (stepSubmit df a) ≤ MAX_SEATS := by
  unfold stepSubmit
  split
  case h_2 e heq => exact h
  case h_1 t heq =>
    rcases hb : get_booking_for_email df a.email with _ | ⟨r0, idx⟩
    · rw [submitBooking_new a.reg a.now a.parentName a.childClass a.ct a.ad a.methodChoice hb]
        at heq
      rcases submitNew_saved_cases heq with ⟨ir, hi, hd, hc, rfl⟩ | ⟨hi, rfl⟩
      · rw [compute_seats_used_append]
        have c2 : seatContribution
            (interestNewRow df a.now a.email a.parentName a.childClass a.ct a.ad
              a.methodChoice "interest") = a.ct + a.ad := by
          simp [seatContribution]
        simp only [MAX_SEATS] at hc h ⊢
        omega
      · rw [compute_seats_used_append]
        have c2 : seatContribution
            (waitlistNewRow df a.now a.email a.parentName a.childClass a.ct a.ad) = 0 := by
          simp [seatContribution]
        omega
    · rw [submitBooking_existing a.reg a.now a.parentName a.childClass a.ct a.ad a.methodChoice hb]
        at heq
      have hget := get_booking_get? hb
      rcases submitExisting_saved_cases heq with ⟨hcat, hc, rfl⟩ | ⟨hcat, rfl⟩
      · rw [List.set_set]
        have key := compute_seats_used_set df idx r0
          (interestR2 df r0 idx a.now a.email a.parentName a.childClass a.ct a.ad
            a.methodChoice r0.category) hget
        have c0 : seatContribution r0 = r0.total_tickets := by
          simp [seatContribution, hcat]
        have c2 : seatContribution
            (interestR2 df r0 idx a.now a.email a.parentName a.childClass a.ct a.ad
              a.methodChoice r0.category) = a.ct + a.ad := by
          simp [seatContribution, hcat]
        rw [c0, c2] at key
        simp only [MAX_SEATS] at hc h ⊢
        omega
      · rw [List.set_set]
        have key := compute_seats_used_set df idx r0
          (waitlistR2 df r0 idx a.now a.email a.parentName a.childClass a.ct a.ad) hget
        have c2 : seatContribution
            (waitlistR2 df r0 idx a.now a.email a.parentName a.childClass a.ct a.ad) = 0 := by
          simp [seatContribution]
        rw [c2] at key
        omega

theorem nodup_replace {l1 l2 : List Nat} {a b : Nat}
    (h : (l1 ++ a :: l2).Nodup) (hb1 : b ∉ l1) (hb2 : b ∉ l2) :
    (l1 ++ b :: l2).Nodup := by
  have h2 := List.nodup_middle.mp h
  have h3 : (l1 ++ l2).Nodup := (List.nodup_cons.mp h2).2
  exact List.nodup_middle.mpr (List.nodup_cons.mpr ⟨by simp [hb1, hb2], h3⟩)

theorem set_eq_nil_iff (l : List Record) (i : Nat) (r : Record) :
    l.set i r = [] ↔ l = [] := by
  rw [← List.length_eq_zero, List.length_set, List.length_eq_zero]

theorem stepSubmit_nodup (df : List Record) (a : SubmitArgs)
    (hnd : (waitlistPriorities df).Nodup) (hcat : CatOK df) :
    (waitlistPriorities (stepSubmit df a)).Nodup ∧ CatOK (stepSubmit df a) := by
  unfold stepSubmit
  split
  case h_2 e heq => exact ⟨hnd, hcat⟩
  case h_1 t heq =>
    rcases hb : get_booking_for_email df a.email with _ | ⟨r0, idx⟩
    · rw [submitBooking_new a.reg a.now a.parentName a.childClass a.ct a.ad a.methodChoice hb]
        at heq
      rcases submitNew_saved_cases heq with ⟨ir, hi, hd, hc, rfl⟩ | ⟨hi, rfl⟩
      · constructor
        · rw [waitlistPriorities_append]
          simpa using hnd
        · intro r hr
          rcases List.mem_append.mp hr with hr | hr
          · exact hcat r hr
          · left
            simp only [List.mem_singleton] at hr
            rw [hr]
            simp
      · constructor
        · have hrw : waitlistPriorities
              (df ++ [waitlistNewRow df a.now a.email a.parentName a.childClass a.ct a.ad])
              = waitlistPriorities df ++ [get_next_priority df] := by
            simp [waitlistPriorities_append]
          have hnx : get_next_priority df ∉ waitlistPriorities df := by
            intro hm
            exact absurd rfl (Nat.ne_of_lt (mem_waitlistPriorities_lt_next hm)).symm
          rw [hrw, List.nodup_append]
          refine ⟨hnd, List.nodup_singleton _, ?_⟩
          intro p hp hq
          simp only [List.mem_singleton] at hq
          subst hq
          exact hnx hp
        · intro r hr
          rcases List.mem_append.mp hr with hr | hr
          · exact hcat r hr
          · right
            simp only [List.mem_singleton] at hr
            rw [hr]
            simp
    · rw [submitBooking_existing a.reg a.now a.parentName a.childClass a.ct a.ad a.methodChoice hb]
        at heq
      have hget := get_booking_get? hb
      have hmem : r0 ∈ df := List.get?_mem hget
      rcases submitExisting_saved_cases heq with ⟨hcat0, hc, rfl⟩ | ⟨hcat0, rfl⟩
      · rw [List.set_set]
        constructor
        · rw [waitlistPriorities_set_nonwait df idx r0 _ hget
            (by rw [hcat0]; decide) (by simp [hcat0])]
          exact hnd
        · intro r hr
          rcases List.mem_or_eq_of_mem_set hr with hr | hr
          · exact hcat r hr
          · left
            rw [hr]
            simp [hcat0]
      · rw [List.set_set]
        have hw : r0.category = "waitlist" := (hcat r0 hmem).resolve_left hcat0
        obtain ⟨l1, l2, e1, e2⟩ := waitlistPriorities_set_wait df idx r0
          (waitlistR2 df r0 idx a.now a.email a.parentName a.childClass a.ct a.ad)
          hget hw (by simp)
        constructor
        · rw [e2, waitlistR2_priority]
          by_cases hp0 : r0.priority_number = 0
          · rw [if_pos hp0]
            have hb1 : ∀ p ∈ waitlistPriorities df, p < get_next_priority df :=
              fun p hp => mem_waitlistPriorities_lt_next hp
            obtain ⟨l1x, l2x, f1, f2⟩ := waitlistPriorities_set_wait df idx r0
              (updatedBase r0 a.now a.email a.parentName a.childClass a.ct a.ad "waitlist")
              hget hw (by simp [updatedBase])
            have hsame : waitlistPriorities
                (df.set idx (updatedBase r0 a.now a.email a.parentName a.childClass
                  a.ct a.ad "waitlist")) = waitlistPriorities df := by
              rw [f2, f1]
              simp [updatedBase]
            have hnext : get_next_priority
                (df.set idx (updatedBase r0 a.now a.email a.parentName a.childClass
                  a.ct a.ad "waitlist")) = get_next_priority df :=
              get_next_priority_congr hsame (set_eq_nil_iff df idx _)
            rw [hnext]
            refine nodup_replace (e1 ▸ hnd) ?_ ?_
            · intro hm
              have : get_next_priority df ∈ waitlistPriorities df := by
                rw [e1]
                exact List.mem_append_left _ hm
              exact absurd rfl (Nat.ne_of_lt (mem_waitlistPriorities_lt_next this)).symm
            · intro hm
              have : get_next_priority df ∈ waitlistPriorities df := by
                rw [e1]
                exact List.mem_append_right _ (List.mem_cons_of_mem _ hm)
              exact absurd rfl (Nat.ne_of_lt (mem_waitlistPriorities_lt_next this)).symm
          · rw [if_neg hp0]
            rw [e1] at hnd
            exact hnd
        · intro r hr
          rcases List.mem_or_eq_of_mem_set hr with hr | hr
          · exact hcat r hr
          · right
            rw [hr]
            simp

theorem get_next_priority_set_base (df : List Record) (idx : Nat) (r0 : Record)
    (hget : df.get? idx = some r0) (hw : r0.category = "waitlist")
    (now email parentName childClass : String) (ct ad : Nat) :
    get_next_priority (df.set idx (updatedBase r0 now email parentName childClass ct ad "waitlist"))
      = get_next_priority df := by
  obtain ⟨l1, l2, f1, f2⟩ := waitlistPriorities_set_wait df idx r0
    (updatedBase r0 now email parentName childClass ct ad "waitlist") hget hw
    (by simp [updatedBase])
  refine get_next_priority_congr ?_ (set_eq_nil_iff df idx _)
  rw [f2, f1]
  simp [updatedBase]

/-- C1: starting from the empty table, for every sequence of parent
booking operations the sum of `total_tickets` over all records whose
category is not `waitlist` never exceeds the fixed seat capacity
`MAX_SEATS`; failed operations leave the table unchanged, so the bound
holds after every prefix of every sequence of operations. -/
theorem claim_C1_capacity_invariant (ops : List SubmitArgs) :
    compute_seats_used (runOps ops) ≤ MAX_SEATS := by
  have main : ∀ df, compute_seats_used df ≤ MAX_SEATS →
      compute_seats_used (ops.foldl stepSubmit df) ≤ MAX_SEATS := by
    induction ops with
    | nil => exact fun df h => h
    | cons a ops ih => exact fun df h => ih _ (stepSubmit_seats df a h)
  exact main [] (by simp [compute_seats_used])

/-- C5: a record whose `payment_status` is `paid` and whose category is
`interest` is immutable through the parent booking flow: every further
submission for its email is rejected with `alreadyPaidImmutable` and
the stored table is not rewritten. -/
theorem claim_C5_paid_record_immutable
    (df : List Record) (reg : List InterestRow)
    (now email parentName childClass : String) (ct ad : Nat) (methodChoice : String)
    (r0 : Record) (idx : Nat)
    (hb : get_booking_for_email df email = some (r0, idx))
    (hps : r0.payment_status = "paid") (hcat : r0.category = "interest") :
    submitBooking df reg now email parentName childClass ct ad methodChoice
      = .err .alreadyPaidImmutable
    ∧ stepSubmit df ⟨reg, now, email, parentName, childClass, ct, ad, methodChoice⟩ = df := by
  have h1 : submitBooking df reg now email parentName childClass ct ad methodChoice
      = .err .alreadyPaidImmutable := by
    rw [submitBooking_existing reg now parentName childClass ct ad methodChoice hb,
      submitExisting_paid hcat hps]
  refine ⟨h1, ?_⟩
  unfold stepSubmit
  rw [h1]

/-- C3: when the interest registry declares a total for the submitted
email and the flow treats the submission as an interest submission (the
fields are filled, the stored record if any is not paid-immutable), a
submitted total exceeding the declared total is rejected with
`exceedsDeclaredInterest` reporting the declared maximum, regardless of
capacity, and the stored table is not rewritten. -/
theorem claim_C3_declared_interest_cap
    (df : List Record) (reg : List InterestRow)
    (now email parentName childClass : String) (ct ad : Nat) (methodChoice : String)
    (ir : InterestRow)
    (hir : get_interest_for_email reg email = some ir)
    (hcat : flowCategory df reg email = "interest")
    (hpaid : ∀ r0 idx, get_booking_for_email df email = some (r0, idx) →
      r0.payment_status ≠ "paid")
    (hpn : parentName ≠ "") (he : email ≠ "")
    (hx : ir.total_tickets < ct + ad) :
    submitBooking df reg now email parentName childClass ct ad methodChoice
      = .err (.exceedsDeclaredInterest ir.total_tickets)
    ∧ stepSubmit df ⟨reg, now, email, parentName, childClass, ct, ad, methodChoice⟩ = df := by
  have ht : ct + ad ≠ 0 := by omega
  have h1 : submitBooking df reg now email parentName childClass ct ad methodChoice
      = .err (.exceedsDeclaredInterest ir.total_tickets) := by
    rcases hb : get_booking_for_email df email with _ | ⟨r0, idx⟩
    · rw [submitBooking_new reg now parentName childClass ct ad methodChoice hb,
        submitNew_declared hir hpn he ht hx]
    · have hc0 : r0.category = "interest" := by
        unfold flowCategory at hcat
        rw [hb] at hcat
        exact hcat
      rw [submitBooking_existing reg now parentName childClass ct ad methodChoice hb,
        submitExisting_declared hc0 (hpaid r0 idx hb) hpn he ht hir hx]
  refine ⟨h1, ?_⟩
  unfold stepSubmit
  rw [h1]

/-- C2, as stated, is falsified by the check order of the code: the
declared-interest check runs before the capacity check, so a submission
that exceeds both limits is rejected with `exceedsDeclaredInterest`,
not with `capacityExceeded`.  Here seatsAfter = 0 - 0 + 100 > 85, yet
the outcome is the declared-interest error. -/
theorem claim_C2_counterexample :
    ((MAX_SEATS : Int) < (compute_seats_used ([] : List Record) : Int)
        - (flowPreviousTotal [] "a@b" : Int) + ((50 + 50 : Nat) : Int))
    ∧ submitBooking [] [irA] "t1" "a@b" "Alice" "Γ" 50 50 "IRIS"
        = .err (.exceedsDeclaredInterest 3)
    ∧ (submitBooking [] [irA] "t1" "a@b" "Alice" "Γ" 50 50 "IRIS").isCapacityError = false := by
  decide

/-- C2 (amended): provided the submission passes the checks the code
runs first — the stored record (if any) is not paid-immutable, the form
fields are nonempty, the ticket count is nonzero, and the declared
interest cap is met — a submission with
seatsAfter = seatsUsedNow - previousTotal + totalTickets > capacity
fails with `capacityExceeded`, reporting
max (capacity - (seatsUsedNow - previousTotal)) 0 seats available, and
the stored table is not rewritten. -/
theorem claim_C2_capacity_gate
    (df : List Record) (reg : List InterestRow)
    (now email parentName childClass : String) (ct ad : Nat) (methodChoice : String)
    (hcat : flowCategory df reg email = "interest")
    (hpaid : ∀ r0 idx, get_booking_for_email df email = some (r0, idx) →
      r0.payment_status ≠ "paid")
    (hpn : parentName ≠ "") (he : email ≠ "") (ht : ct + ad ≠ 0)
    (hdecl : ∀ ir, get_interest_for_email reg email = some ir → ct + ad ≤ ir.total_tickets)
    (hcap : (MAX_SEATS : Int) < (compute_seats_used df : Int)
      - (flowPreviousTotal df email : Int) + ((ct + ad : Nat) : Int)) :
    submitBooking df reg now email parentName childClass ct ad methodChoice
      = .err (.capacityExceeded (max ((MAX_SEATS : Int)
          - ((compute_seats_used df : Int) - (flowPreviousTotal df email : Int))) 0))
    ∧ stepSubmit df ⟨reg, now, email, parentName, childClass, ct, ad, methodChoice⟩ = df := by
  have h1 : submitBooking df reg now email parentName childClass ct ad methodChoice
      = .err (.capacityExceeded (max ((MAX_SEATS : Int)
          - ((compute_seats_used df : Int) - (flowPreviousTotal df email : Int))) 0)) := by
    rcases hb : get_booking_for_email df email with _ | ⟨r0, idx⟩
    · have hp0 : flowPreviousTotal df email = 0 := by
        unfold flowPreviousTotal
        rw [hb]
      rw [hp0] at hcap ⊢
      simp only [Nat.cast_zero, sub_zero] at hcap ⊢
      have hsome : (get_interest_for_email reg email).isSome = true := by
        unfold flowCategory at hcat
        rw [hb] at hcat
        by_cases h : (get_interest_for_email reg email).isSome = true
        · exact h
        · rw [if_neg h] at hcat
          exact absurd hcat (by decide)
      obtain ⟨ir, hir⟩ := Option.isSome_iff_exists.mp hsome
      rw [submitBooking_new reg now parentName childClass ct ad methodChoice hb,
        submitNew_capacity hir hpn he ht (hdecl ir hir) hcap]
    · have hc0 : r0.category = "interest" := by
        unfold flowCategory at hcat
        rw [hb] at hcat
        exact hcat
      have hpt : flowPreviousTotal df email = r0.total_tickets := by
        unfold flowPreviousTotal
        rw [hb]
      rw [hpt] at hcap ⊢
      rw [submitBooking_existing reg now parentName childClass ct ad methodChoice hb,
        submitExisting_capacity hc0 (hpaid r0 idx hb) hpn he ht hdecl hcap]
  refine ⟨h1, ?_⟩
  unfold stepSubmit
  rw [h1]

/-- C4: the admin mark-paid handler fails with `codeNotFound` when no
stored payment code equals the stripped input; fails with
`invalidTargetCategory` when a matching record has category `waitlist`;
and on a unique non-waitlist match it sets that record's
`payment_status` to `paid` and changes no other field of any record. -/
theorem claim_C4_mark_paid (df : List Record) (code : String) :
    ((∀ r ∈ df, r.payment_code ≠ pyStrip code) → mark_paid df code = .codeNotFound)
    ∧ (∀ i r, df.get? i = some r → r.payment_code = pyStrip code → r.category = "waitlist" →
        mark_paid df code = .invalidTargetCategory)
    ∧ (∀ i r, df.get? i = some r → r.payment_code = pyStrip code → r.category ≠ "waitlist" →
        (∀ j r2, df.get? j = some r2 → r2.payment_code = pyStrip code → j = i) →
        mark_paid df code = .saved (df.set i { r with payment_status := "paid" })) := by
  refine ⟨?_, ?_, ?_⟩
  · intro h
    have hany : (df.any fun r => r.payment_code == pyStrip code) = false := by
      rw [List.any_eq_false]
      intro r hr
      simpa using h r hr
    simp only [mark_paid]
    rw [if_pos hany]
  · intro i r hget hcode hwl
    have hmem := List.get?_mem hget
    have hany : (df.any fun r => r.payment_code == pyStrip code) = true :=
      List.any_eq_true.mpr ⟨r, hmem, by simp [hcode]⟩
    have hany2 : (df.any fun r => r.payment_code == pyStrip code && r.category == "waitlist")
        = true := List.any_eq_true.mpr ⟨r, hmem, by simp [hcode, hwl]⟩
    simp only [mark_paid]
    rw [if_neg (by simp [hany]), if_pos hany2]
  · intro i r hget hcode hnw huniq
    have hmem := List.get?_mem hget
    have hany : (df.any fun r2 => r2.payment_code == pyStrip code) = true :=
      List.any_eq_true.mpr ⟨r, hmem, by simp [hcode]⟩
    have hany2 : (df.any fun r2 => r2.payment_code == pyStrip code && r2.category == "waitlist")
        = false := by
      rw [List.any_eq_false]
      intro r2 hr2 hcontra
      simp only [Bool.and_eq_true, beq_iff_eq] at hcontra
      obtain ⟨hc2, hw2⟩ := hcontra
      obtain ⟨j, hj⟩ := List.mem_iff_get?.mp hr2
      have hji := huniq j r2 hj hc2
      subst hji
      rw [hget] at hj
      injection hj with he2
      subst he2
      exact hnw hw2
    simp only [mark_paid]
    rw [if_neg (by simp [hany]), if_neg (by simp [hany2])]
    refine congrArg MarkPaidOutcome.saved ?_
    apply List.ext
    intro n
    rw [List.get?_map]
    by_cases hn : n = i
    · subst hn
      rw [List.get?_set_eq, hget]
      simp [hcode]
    · rw [List.get?_set_ne _ df (Ne.symm hn)]
      cases hg2 : df.get? n with
      | none => simp
      | some r2 =>
          have hne : r2.payment_code ≠ pyStrip code := by
            intro hc2
            exact hn (huniq n r2 hg2 hc2)
          simp [hne]

theorem generate_payment_code_ne (df : List Record) : generate_payment_code df ≠ "" := by
  intro h
  have h2 := congrArg String.length h
  rw [generate_payment_code, String.length_append] at h2
  have h3 : ("EVT-" : String).length = 4 := rfl
  have h4 : ("" : String).length = 0 := rfl
  omega

theorem generate_payment_code_set (df : List Record) (i : Nat) (r : Record) :
    generate_payment_code (df.set i r) = generate_payment_code df := by
  simp [generate_payment_code]

/-- C7: a waitlist submission for an email whose stored record is on
the waitlist overwrites the ticket counts, forces category and
`payment_status` to `waitlist`, clears the payment method and payment
code, zeroes the amount, keeps the stored `priority_number` whenever it
is nonzero, and assigns `get_next_priority` only when it is zero. -/
theorem claim_C7_waitlist_update
    (df : List Record) (reg : List InterestRow)
    (now email parentName childClass : String) (ct ad : Nat) (methodChoice : String)
    (r0 : Record) (idx : Nat)
    (hb : get_booking_for_email df email = some (r0, idx))
    (hcat : r0.category = "waitlist")
    (hpn : parentName ≠ "") (he : email ≠ "") (ht : ct + ad ≠ 0) :
    submitBooking df reg now email parentName childClass ct ad methodChoice
      = .saved (df.set idx
          { timestamp := now, parent_name := pyStrip parentName, email := pyStrip email,
            child_class := childClass, child_tickets := ct, adult_tickets := ad,
            total_tickets := ct + ad, total_amount := 0, payment_method := "",
            payment_code := "", payment_status := "waitlist", category := "waitlist",
            priority_number :=
              if r0.priority_number = 0 then get_next_priority df
              else r0.priority_number }) := by
  have hget := get_booking_get? hb
  have hnext := get_next_priority_set_base df idx r0 hget hcat now email parentName childClass ct ad
  simp only [updatedBase] at hnext
  rw [submitBooking_existing reg now parentName childClass ct ad methodChoice hb,
    submitExisting_waitlist (by rw [hcat]; decide) hpn he ht, List.set_set]
  simp [waitlistR2, updatedBase, hnext]

/-- C8: re-submitting through the interest branch data identical to the
stored pending booking changes no stored field except `timestamp`; in
particular the stored payment code and the `pending` status are kept —
the operation never sets `paid`. -/
theorem claim_C8_identical_resubmission
    (df : List Record) (reg : List InterestRow)
    (now email parentName childClass : String) (ct ad : Nat) (methodChoice : String)
    (r0 : Record) (idx : Nat)
    (hb : get_booking_for_email df email = some (r0, idx))
    (hcat : r0.category = "interest") (hst : r0.payment_status = "pending")
    (hpn : parentName ≠ "") (he : email ≠ "")
    (h1 : pyStrip parentName = r0.parent_name) (h2 : pyStrip email = r0.email)
    (h3 : childClass = r0.child_class) (h4 : ct = r0.child_tickets)
    (h5 : ad = r0.adult_tickets) (h6 : methodChoice = r0.payment_method)
    (h7 : r0.total_tickets = ct + ad) (h8 : r0.total_amount = (ct + ad) * TICKET_PRICE)
    (h9 : r0.payment_code ≠ "") (ht : ct + ad ≠ 0)
    (hseats : compute_seats_used df ≤ MAX_SEATS)
    (hdecl : ∀ ir, get_interest_for_email reg email = some ir → ct + ad ≤ ir.total_tickets) :
    submitBooking df reg now email parentName childClass ct ad methodChoice
      = .saved (df.set idx { r0 with timestamp := now }) := by
  have hps : r0.payment_status ≠ "paid" := by rw [hst]; decide
  have hcap : ¬ ((MAX_SEATS : Int) < (compute_seats_used df : Int) - (r0.total_tickets : Int)
      + ((ct + ad : Nat) : Int)) := by
    rw [h7]
    simp only [MAX_SEATS] at hseats ⊢
    omega
  rw [submitBooking_existing reg now parentName childClass ct ad methodChoice hb,
    submitExisting_interest_update hcat hps hpn he ht hdecl hcap, List.set_set]
  simp [interestR2, updatedBase, hcat, hst, h1, h2, ← h3, ← h4, ← h5, ← h6, h7, h8, h9]

/-- C9, as stated, fails on the code: the flow never promotes a
waitlist record to `interest`, because an existing record keeps its
stored category.  Concretely: `c@d` has a waitlist record, a registry
declaration allowing 4 tickets, and capacity is ample; the submission
succeeds, yet the saved record's category is still `waitlist`, not
`interest`. -/
theorem claim_C9_counterexample :
    (submitBooking [recW1] [irC] "t1" "c@d" "Carol" "Α" 1 1 "IRIS").isSaved = true
    ∧ ((stepSubmit [recW1] argsC).get? 0).map Record.category = some "waitlist"
    ∧ ¬ ((stepSubmit [recW1] argsC).get? 0).map Record.category = some "interest" := by
  decide

/-- C9 (amended): the booking flow does not support the
waitlist-to-interest transition — a successful submission for an email
whose stored record is on the waitlist leaves that record's category
`waitlist` — and the full submitted total is charged against capacity
exactly for submissions with no existing record (creations), whose
successful outcome raises `compute_seats_used` by the whole submitted
total. -/
theorem claim_C9_no_promotion :
    (∀ (df : List Record) (reg : List InterestRow)
        (now email parentName childClass : String) (ct ad : Nat) (methodChoice : String)
        (r0 : Record) (idx : Nat) (t : List Record),
      get_booking_for_email df email = some (r0, idx) → r0.category = "waitlist" →
      submitBooking df reg now email parentName childClass ct ad methodChoice = .saved t →
      (t.get? idx).map Record.category = some "waitlist")
    ∧ (∀ (df : List Record) (reg : List InterestRow)
        (now email parentName childClass : String) (ct ad : Nat) (methodChoice : String)
        (ir : InterestRow) (t : List Record),
      get_booking_for_email df email = none →
      get_interest_for_email reg email = some ir →
      submitBooking df reg now email parentName childClass ct ad methodChoice = .saved t →
      compute_seats_used t = compute_seats_used df + (ct + ad)) := by
  constructor
  · intro df reg now email parentName childClass ct ad methodChoice r0 idx t hb hw heq
    rw [submitBooking_existing reg now parentName childClass ct ad methodChoice hb] at heq
    rcases submitExisting_saved_cases heq with ⟨hcat0, -, rfl⟩ | ⟨-, rfl⟩
    · rw [hcat0] at hw
      exact absurd hw (by decide)
    · rw [List.set_set, List.get?_set_eq, get_booking_get? hb]
      simp
  · intro df reg now email parentName childClass ct ad methodChoice ir t hb hir heq
    rw [submitBooking_new reg now parentName childClass ct ad methodChoice hb] at heq
    rcases submitNew_saved_cases heq with ⟨ir2, hi2, -, -, rfl⟩ | ⟨hi2, rfl⟩
    · rw [compute_seats_used_append]
      simp [seatContribution]
    · rw [hir] at hi2
      cases hi2

/-- C10: after every successful interest-category upsert the affected
record's payment code is nonempty — a creation stores
`generate_payment_code df`, and an update keeps a nonempty stored code,
generating a fresh one from the current table length only when the
stored code was empty. -/
theorem claim_C10_payment_code :
    (∀ (df : List Record) (reg : List InterestRow)
        (now email parentName childClass : String) (ct ad : Nat) (methodChoice : String)
        (t : List Record),
      get_booking_for_email df email = none →
      (get_interest_for_email reg email).isSome = true →
      submitBooking df reg now email parentName childClass ct ad methodChoice = .saved t →
      (t.get? df.length).map Record.payment_code = some (generate_payment_code df)
        ∧ generate_payment_code df ≠ "")
    ∧ (∀ (df : List Record) (reg : List InterestRow)
        (now email parentName childClass : String) (ct ad : Nat) (methodChoice : String)
        (r0 : Record) (idx : Nat) (t : List Record),
      get_booking_for_email df email = some (r0, idx) → r0.category = "interest" →
      submitBooking df reg now email parentName childClass ct ad methodChoice = .saved t →
      (t.get? idx).map Record.payment_code
        = some (if r0.payment_code = "" then generate_payment_code df else r0.payment_code)
        ∧ (if r0.payment_code = "" then generate_payment_code df else r0.payment_code) ≠ "") := by
  constructor
  · intro df reg now email parentName childClass ct ad methodChoice t hb hsome heq
    rw [submitBooking_new reg now parentName childClass ct ad methodChoice hb] at heq
    rcases submitNew_saved_cases heq with ⟨ir2, hi2, -, -, rfl⟩ | ⟨hi2, rfl⟩
    · refine ⟨?_, generate_payment_code_ne df⟩
      rw [List.get?_concat_length]
      simp [interestNewRow]
    · rw [hi2] at hsome
      cases hsome
  · intro df reg now email parentName childClass ct ad methodChoice r0 idx t hb hcat0 heq
    rw [submitBooking_existing reg now parentName childClass ct ad methodChoice hb] at heq
    rcases submitExisting_saved_cases heq with ⟨-, -, rfl⟩ | ⟨hne, rfl⟩
    · constructor
      · rw [List.set_set, List.get?_set_eq, get_booking_get? hb]
        simp [interestR2, updatedBase, generate_payment_code_set]
      · by_cases hc : r0.payment_code = ""
        · rw [if_pos hc]
          exact generate_payment_code_ne df
        · rw [if_neg hc]
          exact hc
    · exact absurd hcat0 hne

/-- C6: `get_next_priority` returns 1 when no waitlist records exist
and the maximum waitlist `priority_number` plus 1 otherwise; every
stored waitlist priority is strictly below the next assigned one, so
priorities assigned in sequence strictly increase, and over every run
of booking operations from the empty table the waitlist priority
numbers stay pairwise distinct. -/
theorem claim_C6_next_priority :
    (∀ df : List Record, (∀ r ∈ df, r.category ≠ "waitlist") → get_next_priority df = 1)
    ∧ (∀ df : List Record, waitlistPriorities df ≠ [] →
        get_next_priority df = (waitlistPriorities df).foldr Nat.max 0 + 1)
    ∧ (∀ df : List Record, ∀ p ∈ waitlistPriorities df, p < get_next_priority df)
    ∧ (∀ ops : List SubmitArgs, (waitlistPriorities (runOps ops)).Nodup) := by
  refine ⟨?_, ?_, ?_, ?_⟩
  · intro df h
    have hempty : waitlistPriorities df = [] := by
      unfold waitlistPriorities
      rw [List.filter_eq_nil.mpr (by intro r hr; simpa using h r hr)]
      rfl
    by_cases e : df = [] <;> simp [get_next_priority, e, hempty]
  · intro df h
    have e : df ≠ [] := by
      intro e
      subst e
      exact h rfl
    simp [get_next_priority, e, h]
  · exact fun df p hp => mem_waitlistPriorities_lt_next hp
  · intro ops
    have main : ∀ st, (waitlistPriorities st).Nodup → CatOK st →
        (waitlistPriorities (ops.foldl stepSubmit st)).Nodup
          ∧ CatOK (ops.foldl stepSubmit st) := by
      induction ops with
      | nil => exact fun st h1 h2 => ⟨h1, h2⟩
      | cons a ops ih =>
          exact fun st h1 h2 =>
            ih _ (stepSubmit_nodup st a h1 h2).1 (stepSubmit_nodup st a h1 h2).2
    exact (main [] (by simp [waitlistPriorities]) (by intro r hr; simp at hr)).1

/-- Witness for C2 (amended): with 84 of 85 seats taken, a fresh
3-ticket submission within its declaration fails with
`capacityExceeded`, reporting 1 seat available. -/
theorem claim_C2_capacity_gate_witness :
    submitBooking [recBig] [irA] "t1" "a@b" "Alice" "Γ" 2 1 "IRIS"
      = .err (.capacityExceeded 1) := by
  have h := (claim_C2_capacity_gate [recBig] [irA] "t1" "a@b" "Alice" "Γ" 2 1 "IRIS"
    (by decide)
    (by
      intro r0 idx h
      rw [show get_booking_for_email [recBig] "a@b" = none from by decide] at h
      cases h)
    (by decide) (by decide) (by decide)
    (by
      intro ir h
      rw [show get_interest_for_email [irA] "a@b" = some irA from by decide] at h
      injection h with h2
      subst h2
      decide)
    (by decide)).1
  rw [h]
  decide

/-- Witness for C3: a 4-ticket submission against a 3-ticket
declaration fails with `exceedsDeclaredInterest 3`. -/
theorem claim_C3_witness :
    submitBooking [] [irA] "t1" "a@b" "Alice" "Γ" 3 1 "IRIS"
      = .err (.exceedsDeclaredInterest 3) := by
  have h := (claim_C3_declared_interest_cap [] [irA] "t1" "a@b" "Alice" "Γ" 3 1 "IRIS" irA
    (by decide) (by decide)
    (by
      intro r0 idx h
      rw [show get_booking_for_email [] "a@b" = none from by decide] at h
      cases h)
    (by decide) (by decide) (by decide)).1
  rw [h]
  decide

/-- Witness for C4: an unmatched code, a whitespace code matching a
waitlist record's empty stored code, and a valid pending code. -/
theorem claim_C4_mark_paid_witness :
    mark_paid [recA] "NOPE" = .codeNotFound
    ∧ mark_paid [recW1] " " = .invalidTargetCategory
    ∧ mark_paid [recA] "EVT-001" = .saved [{ recA with payment_status := "paid" }] := by
  refine ⟨(claim_C4_mark_paid [recA] "NOPE").1 (by decide),
    (claim_C4_mark_paid [recW1] " ").2.1 0 recW1 (by decide) (by decide) (by decide), ?_⟩
  have h := (claim_C4_mark_paid [recA] "EVT-001").2.2 0 recA (by decide) (by decide) (by decide)
    (by
      intro j r2 hj hc
      cases j with
      | zero => rfl
      | succ n => simp at hj)
  rw [h]
  decide

/-- Witness for C5: the paid interest record for `a@b` rejects a
resubmission with `alreadyPaidImmutable` and stays as it was. -/
theorem claim_C5_witness :
    submitBooking [recPaid] [irA] "t1" "a@b" "Alice" "Γ" 2 1 "IRIS"
      = .err .alreadyPaidImmutable
    ∧ stepSubmit [recPaid] ⟨[irA], "t1", "a@b", "Alice", "Γ", 2, 1, "IRIS"⟩ = [recPaid] :=
  claim_C5_paid_record_immutable [recPaid] [irA] "t1" "a@b" "Alice" "Γ" 2 1 "IRIS" recPaid 0
    (by decide) (by decide) (by decide)

/-- Witness for C6: a table with no waitlist records yields priority 1;
a table with waitlist priorities 1 and 2 yields their maximum plus 1,
and the stored priority 2 is strictly below it. -/
theorem claim_C6_witness :
    get_next_priority [recA] = 1
    ∧ get_next_priority [recW1, recW2]
        = (waitlistPriorities [recW1, recW2]).foldr Nat.max 0 + 1
    ∧ 2 < get_next_priority [recW1, recW2] :=
  ⟨claim_C6_next_priority.1 [recA] (by decide),
    claim_C6_next_priority.2.1 [recW1, recW2] (by decide),
    claim_C6_next_priority.2.2.1 [recW1, recW2] 2 (by decide)⟩

/-- Witness for C7: re-submitting `c@d` to the waitlist with new counts
keeps priority 1 and clears the payment fields. -/
theorem claim_C7_waitlist_update_witness :
    submitBooking [recW1] [irC] "t1" "c@d" "Carol" "Α" 3 0 "IRIS"
      = .saved [{
          timestamp := "t1",
          parent_name := "Carol",
          email := "c@d",
          child_class := "Α",
          child_tickets := 3,
          adult_tickets := 0,
          total_tickets := 3,
          total_amount := 0,
          payment_method := "",
          payment_code := "",
          payment_status := "waitlist",
          category := "waitlist",
          priority_number := 1 }] := by
  have h := claim_C7_waitlist_update [recW1] [irC] "t1" "c@d" "Carol" "Α" 3 0 "IRIS" recW1 0
    (by decide) (by decide) (by decide) (by decide) (by decide)
  rw [h]
  decide

/-- Witness for C8: re-submitting the exact stored data of `a@b`
changes only the timestamp. -/
theorem claim_C8_identical_resubmission_witness :
    submitBooking [recA] [] "t1" "a@b" "Alice" "Γ" 2 1 "IRIS"
      = .saved [{ recA with timestamp := "t1" }] := by
  have h := claim_C8_identical_resubmission [recA] [] "t1" "a@b" "Alice" "Γ" 2 1 "IRIS" recA 0
    (by decide) (by decide) (by decide) (by decide) (by decide) (by decide) (by decide)
    (by decide) (by decide) (by decide) (by decide) (by decide) (by decide) (by decide)
    (by decide) (by decide)
    (by
      intro ir h
      rw [show get_interest_for_email [] "a@b" = none from rfl] at h
      cases h)
  rw [h]
  decide

/-- Witness for C9 (amended): the waitlist record of `c@d` stays
`waitlist` after a successful resubmission, and a fresh interest
creation charges its full total against the seat count. -/
theorem claim_C9_no_promotion_witness :
    ((stepSubmit [recW1] argsC).get? 0).map Record.category = some "waitlist"
    ∧ compute_seats_used (stepSubmit [] ⟨[irA], "t1", "a@b", "Alice", "Γ", 2, 1, "IRIS"⟩)
        = compute_seats_used ([] : List Record) + (2 + 1) := by
  constructor
  · exact claim_C9_no_promotion.1 [recW1] [irC] "t1" "c@d" "Carol" "Α" 1 1 "IRIS" recW1 0
      (stepSubmit [recW1] argsC) (by decide) (by decide) (by decide)
  · exact claim_C9_no_promotion.2 [] [irA] "t1" "a@b" "Alice" "Γ" 2 1 "IRIS" irA
      (stepSubmit [] ⟨[irA], "t1", "a@b", "Alice", "Γ", 2, 1, "IRIS"⟩)
      (by decide) (by decide) (by decide)

/-- Witness for C10: an interest creation stores code `EVT-001`; an
update of a record with an empty stored code generates `EVT-002`; an
update of a record with stored code `EVT-001` keeps it. -/
theorem claim_C10_payment_code_witness :
    ((stepSubmit [] ⟨[irA], "t1", "a@b", "Alice", "Γ", 2, 1, "IRIS"⟩).get? 0).map
        Record.payment_code = some "EVT-001"
    ∧ ((stepSubmit [recNC] argsNC).get? 0).map Record.payment_code = some "EVT-002"
    ∧ ((stepSubmit [recA] ⟨[], "t1", "a@b", "Alice", "Γ", 2, 1, "IRIS"⟩).get? 0).map
        Record.payment_code = some "EVT-001" := by
  refine ⟨?_, ?_, ?_⟩
  · have h := (claim_C10_payment_code.1 [] [irA] "t1" "a@b" "Alice" "Γ" 2 1 "IRIS"
      (stepSubmit [] ⟨[irA], "t1", "a@b", "Alice", "Γ", 2, 1, "IRIS"⟩)
      (by decide) (by decide) (by decide)).1
    rw [show ([] : List Record).length = 0 from rfl] at h
    rw [h]
    decide
  · have h := (claim_C10_payment_code.2 [recNC] [] "t1" "n@x" "Nora" "Β" 3 2 "IRIS" recNC 0
      (stepSubmit [recNC] argsNC) (by decide) (by decide) (by decide)).1
    rw [h]
    decide
  · have h := (claim_C10_payment_code.2 [recA] [] "t1" "a@b" "Alice" "Γ" 2 1 "IRIS" recA 0
      (stepSubmit [recA] ⟨[], "t1", "a@b", "Alice", "Γ", 2, 1, "IRIS"⟩)
      (by decide) (by decide) (by decide)).1
    rw [h]
    decide

end BookSeat
